import Mathlib

/-!
# Verification of the bacbo-bot core (src/bot.py)

Shallow embedding of the session/risk state machine and staking advisor of
`src/bot.py`. Monetary amounts, probabilities and timestamps are modelled as
exact rationals (`ℚ`); Python's `int` truncation and `round(x, 2)`
(round-half-to-even) are modelled explicitly. All concrete inputs used in
the theorems below are dyadic rationals on which the Python float
computations are exact, so the rational model agrees with the code there.
-/

/-- The three wager markets (`MARKETS = {"dragon", "tiger", "tie"}`). -/
inductive Market where
  | dragon
  | tiger
  | tie
deriving DecidableEq, Repr

/-- A recorded wager outcome (`win/lose/push`). -/
inductive Outcome where
  | win
  | lose
  | push
deriving DecidableEq, Repr

/-- Python's `class Bet(BaseModel)`: timestamp, stake, market, optional outcome and pnl. -/
structure Bet where
  ts : ℚ
  stake : ℚ
  market : Market
  outcome : Option Outcome
  pnl : Option ℚ
deriving DecidableEq, Repr

/-- Python's `class Profile(BaseModel)` — one record per user.  The `probs` dict is
modelled as a total function on `Market` (the code only reads the three keys
it initialises).  Python defaults (`bankroll=0.0`, `stop_loss=0.0`, ...) are
kept; the `time.time()` defaults for the timestamps are modelled as an
arbitrary supplied value (here 0). -/
structure Profile where
  bankroll : ℚ := 0
  session_start : ℚ := 0
  stop_loss : ℚ := 0
  stop_win : ℚ := 0
  cooldown_min : ℤ := 0
  last_bet_ts : ℚ := 0
  bets : List Bet := []
  lifetime_bets : ℕ := 0
  lifetime_pnl : ℚ := 0
  probs : Market → ℚ := fun m => match m with
    | .dragon => 1/2
    | .tiger => 1/2
    | .tie => 2/25
  auto_enabled : Bool := false
  auto_interval_min : ℤ := 15

/-- Python `int(x)` on a real value: truncation toward zero. -/
def pyInt (q : ℚ) : ℤ :=
  if 0 ≤ q then ⌊q⌋ else ⌈q⌉

/-- Round a rational to the nearest integer, ties to even — the rounding used
by Python's built-in `round` (banker's rounding). -/
def roundHalfEven (q : ℚ) : ℤ :=
  if q - ⌊q⌋ < 1/2 then ⌊q⌋
  else if 1/2 < q - ⌊q⌋ then ⌊q⌋ + 1
  else if ⌊q⌋ % 2 = 0 then ⌊q⌋ else ⌊q⌋ + 1

/-- Python `round(x, 2)`: two-decimal rounding, ties to even. -/
def round2 (q : ℚ) : ℚ :=
  (roundHalfEven (q * 100) : ℚ) / 100

/-- Round to the nearest integer, ties away from zero (NOT what Python's
`round` does — used only to state the spec's claimed rounding mode). -/
def roundHalfAway (q : ℚ) : ℤ :=
  if 0 ≤ q then ⌊q + 1/2⌋ else ⌈q - 1/2⌉

/-- Two-decimal rounding, ties away from zero — the rounding mode the spec
claims for monetary amounts. -/
def round2away (q : ℚ) : ℚ :=
  (roundHalfAway (q * 100) : ℚ) / 100

/-- The helper `session_pnl(p)`: sum of `b.pnl` over bets whose pnl is set. -/
def session_pnl (P : Profile) : ℚ :=
  (P.bets.filterMap (fun b => b.pnl)).sum

/-- The helper `ensure_cooldown(p)`: `None` when `cooldown_min ≤ 0`; otherwise
`rem = int(last_bet_ts + cooldown_min*60 - now)`, returned only when
positive.  The current time is passed explicitly (`now()` in the code). -/
def ensure_cooldown (P : Profile) (nowT : ℚ) : Option ℤ :=
  if P.cooldown_min ≤ 0 then none
  else if 0 < pyInt (P.last_bet_ts + (P.cooldown_min : ℚ) * 60 - nowT)
  then some (pyInt (P.last_bet_ts + (P.cooldown_min : ℚ) * 60 - nowT))
  else none

/-- The helper `kelly_fraction(p, b)`: `(b*p - (1-p))/b` clamped to `[0, 1]`. -/
def kelly_fraction (p : ℚ) (b : ℚ) : ℚ :=
  max 0 (min 1 ((b * p - (1 - p)) / b))

/-- The market/probability pair chosen by `advisor_suggestion`:
`max([(m, p.probs.get(m, 0.5)) for m in ("dragon","tiger")], key=...)`.
Python's `max` keeps the first element on ties, so dragon wins ties. -/
def chosen (P : Profile) : Market × ℚ :=
  if P.probs Market.dragon < P.probs Market.tiger
  then (Market.tiger, P.probs Market.tiger)
  else (Market.dragon, P.probs Market.dragon)

/-- The advisor's decision, abstracting the two reply strings of
`advisor_suggestion`: either "no edge, don't bet" or a market with the
probability used and the recommended stake. -/
inductive Suggestion where
  | noEdge
  | stake (market : Market) (prob : ℚ) (amount : ℚ)
deriving DecidableEq, Repr

/-- The advisor `advisor_suggestion(p)`: pick the better of dragon/tiger, compute the
Kelly fraction for a 1:1 payout, return NoEdge when `prob ≤ 0.5 or f ≤ 0`,
else `stake = max(1.0, round(p.bankroll * f, 2))`. -/
def advisor_suggestion (P : Profile) : Suggestion :=
  if (chosen P).2 ≤ 1/2 ∨ kelly_fraction (chosen P).2 1 ≤ 0 then
    Suggestion.noEdge
  else
    Suggestion.stake (chosen P).1 (chosen P).2
      (max 1 (round2 (P.bankroll * kelly_fraction (chosen P).2 1)))

/-- Result of the stop-limit checks done at the top of `suggest` /
`auto_tick` (lines 164–168): stop-loss condition first, then stop-win. -/
inductive GateResult where
  | stopLossHit
  | stopWinHit
  | clear
deriving DecidableEq, Repr

/-- The stop-limit checks of `suggest` (shared verbatim by `auto_tick`):
`if p.stop_loss and pnl_s <= -abs(p.stop_loss)` then stop-loss, else
`if p.stop_win and pnl_s >= abs(p.stop_win)` then stop-win, else clear.
Python float truthiness `if p.stop_loss` is `stop_loss ≠ 0`. -/
def check_limits (sl sw pnl : ℚ) : GateResult :=
  if sl ≠ 0 ∧ pnl ≤ -|sl| then GateResult.stopLossHit
  else if sw ≠ 0 ∧ |sw| ≤ pnl then GateResult.stopWinHit
  else GateResult.clear

/-- What the `/suggest` handler replies with, abstracting its four
`reply_text` branches. -/
inductive SuggestResult where
  | stopLossHit
  | stopWinHit
  | cooldownActive (rem : ℤ)
  | advice (s : Suggestion)
deriving DecidableEq, Repr

/-- The handler `suggest(update, context)` (lines 161–173): evaluates the stop-loss
condition, then the stop-win condition, then the cooldown (`if rem:` —
`rem = 0` is falsy, though `ensure_cooldown` never returns 0), and only
then calls `advisor_suggestion`. -/
def suggest (P : Profile) (nowT : ℚ) : SuggestResult :=
  match check_limits P.stop_loss P.stop_win (session_pnl P) with
  | GateResult.stopLossHit => SuggestResult.stopLossHit
  | GateResult.stopWinHit => SuggestResult.stopWinHit
  | GateResult.clear =>
    match ensure_cooldown P nowT with
    | some r =>
        if r = 0 then SuggestResult.advice (advisor_suggestion P)
        else SuggestResult.cooldownActive r
    | none => SuggestResult.advice (advisor_suggestion P)

/-- The profile after a successful `/bet`: append an open wager and set
`last_bet_ts = time.time()`. -/
def place_bet (P : Profile) (stake : ℚ) (m : Market) (nowT : ℚ) : Profile :=
  { P with
    bets := P.bets ++ [{ ts := nowT, stake := stake, market := m,
                         outcome := none, pnl := none }],
    last_bet_ts := nowT }

/-- Result of the `/bet` handler. -/
inductive BetResult where
  | invalid
  | cooldownActive (rem : ℤ)
  | placed (P : Profile)

/-- The handler `bet(update, context)` (lines 175–192): validate `stake > 0` and a known
market (market validity is intrinsic to the `Market` type here), check the
cooldown only — stop-limits are NOT checked — then append the open wager. -/
def bet (P : Profile) (stake : ℚ) (m : Market) (nowT : ℚ) : BetResult :=
  if 0 < stake then
    match ensure_cooldown P nowT with
    | some r =>
        if r = 0 then BetResult.placed (place_bet P stake m nowT)
        else BetResult.cooldownActive r
    | none => BetResult.placed (place_bet P stake m nowT)
  else BetResult.invalid

/-- Profit/loss rule of `result_cmd`: win → +stake, lose → −stake, push → 0. -/
def pnlOf (oc : Outcome) (stake : ℚ) : ℚ :=
  match oc with
  | Outcome.win => stake
  | Outcome.lose => -stake
  | Outcome.push => 0

/-- Close the most recently appended open bet (the code scans
`reversed(p.bets)` for the first bet with `outcome is None`):
returns the updated list and the pnl, or `none` when no bet is open. -/
def closeLast (bets : List Bet) (oc : Outcome) : Option (List Bet × ℚ) :=
  match bets with
  | [] => none
  | b :: rest =>
    match closeLast rest oc with
    | some (rest', pnl) => some (b :: rest', pnl)
    | none =>
      if b.outcome = none then
        some ({ b with outcome := some oc, pnl := some (pnlOf oc b.stake) }
                :: rest, pnlOf oc b.stake)
      else none

/-- Result of the `/result` handler: either "Não há aposta aberta" or the
updated profile together with the pnl of the closed wager. -/
inductive ResultCmdResult where
  | noOpenWager
  | closed (P : Profile) (pnl : ℚ)

/-- The handler `result_cmd(update, context)` (lines 194–213) for a valid outcome: close
the most recent open bet, add its pnl to `lifetime_pnl` and `bankroll`, and
bump `lifetime_bets`; reports `noOpenWager` (and changes nothing) when no
bet is open. -/
def result_cmd (P : Profile) (oc : Outcome) : ResultCmdResult :=
  match closeLast P.bets oc with
  | none => ResultCmdResult.noOpenWager
  | some (bets', pnl) =>
      ResultCmdResult.closed
        { P with
          bets := bets',
          lifetime_bets := P.lifetime_bets + 1,
          lifetime_pnl := P.lifetime_pnl + pnl,
          bankroll := P.bankroll + pnl }
        pnl

/-- Modelled from the spec's words for `cooldown_remaining` (refinement
comparison only — the code's version is `ensure_cooldown`): none when
`cooldown_minutes ≤ 0`; otherwise none when the raw remaining time
`last_wager_timestamp + cooldown_minutes*60 − now` is ≤ 0, else that value
floored to an integer. -/
def cooldown_remaining_claim (P : Profile) (nowT : ℚ) : Option ℤ :=
  if P.cooldown_min ≤ 0 then none
  else if P.last_bet_ts + (P.cooldown_min : ℚ) * 60 - nowT ≤ 0 then none
  else some ⌊P.last_bet_ts + (P.cooldown_min : ℚ) * 60 - nowT⌋

/-! ### Concrete profiles used by the witnesses and counterexamples -/

/-- Bankroll 17, dragon probability 9/16: the Kelly stake before rounding is
`17 · 1/8 = 2.125`, an exact tie between 2.12 and 2.13 (exact in binary
floating point as well, so the Python code hits the same tie). -/
def profC1cx : Profile :=
  { bankroll := 17,
    probs := fun m => match m with
      | .dragon => 9/16
      | .tiger => 1/2
      | .tie => 2/25 }

/-- Bankroll 100, dragon probability 3/4. -/
def profC1w : Profile :=
  { bankroll := 100,
    probs := fun m => match m with
      | .dragon => 3/4
      | .tiger => 1/2
      | .tie => 2/25 }

/-- Stop-loss 50 already hit (one closed losing wager of 50) and a 10-minute
cooldown whose last wager was at time 100 — both gates hold at time 100. -/
def profC2cx : Profile :=
  { stop_loss := 50,
    cooldown_min := 10,
    last_bet_ts := 100,
    bets := [{ ts := 0, stake := 50, market := Market.dragon,
               outcome := some Outcome.lose, pnl := some (-50) }] }

/-- Stop-win 50 already hit (one closed winning wager of 50) and an active
10-minute cooldown. -/
def profC2cx' : Profile :=
  { stop_win := 50,
    cooldown_min := 10,
    last_bet_ts := 100,
    bets := [{ ts := 0, stake := 50, market := Market.tiger,
               outcome := some Outcome.win, pnl := some 50 }] }

/-- Stop-loss 50 already hit, no cooldown configured: `/bet` must still go
through. -/
def profC3w : Profile :=
  { bankroll := 100,
    stop_loss := 50,
    cooldown_min := 0,
    bets := [{ ts := 0, stake := 50, market := Market.tiger,
               outcome := some Outcome.lose, pnl := some (-50) }] }

/-- Fresh profile with bankroll 100, used for the bet-then-win scenario. -/
def profC4w : Profile :=
  { bankroll := 100 }

/-- A profile with exactly one open wager of stake 10 on dragon. -/
def profC5a : Profile :=
  { bankroll := 100,
    bets := [{ ts := 5, stake := 10, market := Market.dragon,
               outcome := none, pnl := none }] }

/-- The profile `profC5a` after its only open wager was closed as a win. -/
def profC5b : Profile :=
  { bankroll := 110,
    bets := [{ ts := 5, stake := 10, market := Market.dragon,
               outcome := some Outcome.win, pnl := some 10 }],
    lifetime_bets := 1,
    lifetime_pnl := 10 }

/-- All-default profile (probabilities 1/2, 1/2, 2/25; bankroll 0). -/
def profDefault : Profile := {}

/-- The spec's advisor scenario: bankroll 100, probabilities
dragon 0.7, tiger 0.4, tie 0.08. -/
def profC8w : Profile :=
  { bankroll := 100,
    probs := fun m => match m with
      | .dragon => 7/10
      | .tiger => 2/5
      | .tie => 2/25 }

/-- One-minute cooldown, last wager 30 seconds before time 100. -/
def profC9w30 : Profile :=
  { cooldown_min := 1, last_bet_ts := 70 }

/-- One-minute cooldown, last wager 61 seconds before time 100. -/
def profC9w61 : Profile :=
  { cooldown_min := 1, last_bet_ts := 39 }

/-- One-minute cooldown, last wager 59.5 seconds before time 100: the raw
remaining time is 0.5 seconds (exact in binary floating point). -/
def profC9cx : Profile :=
  { cooldown_min := 1, last_bet_ts := 81/2 }

/-- Bankroll 5, dragon probability 1 (declared certainties are accepted):
Kelly fraction 1, so the whole bankroll is suggested. -/
def profC10w : Profile :=
  { bankroll := 5,
    probs := fun m => match m with
      | .dragon => 1
      | .tiger => 1/2
      | .tie => 2/25 }

/-! ### Helper lemmas -/

/-- Evaluate `⌊q⌋` at a concrete rational. -/
lemma floor_eval {q : ℚ} {n : ℤ} (h1 : (n : ℚ) ≤ q) (h2 : q < n + 1) :
    ⌊q⌋ = n :=
  Int.floor_eq_iff.mpr ⟨h1, h2⟩

/-- The probability picked by the advisor is the larger of the two declared
probabilities. -/
lemma chosen_snd (P : Profile) :
    (chosen P).2 = max (P.probs Market.dragon) (P.probs Market.tiger) := by
  rw [chosen]
  split_ifs with h
  · exact (max_eq_right (le_of_lt h)).symm
  · exact (max_eq_left (not_lt.mp h)).symm

/-- The market picked by the advisor: tiger only when its probability is
strictly larger, otherwise dragon. -/
lemma chosen_fst (P : Profile) :
    (P.probs Market.tiger ≤ P.probs Market.dragon →
      (chosen P).1 = Market.dragon) ∧
    (P.probs Market.dragon < P.probs Market.tiger →
      (chosen P).1 = Market.tiger) := by
  rw [chosen]
  split_ifs with h
  · exact ⟨fun h' => absurd h (not_lt.mpr h'), fun _ => rfl⟩
  · exact ⟨fun _ => rfl, fun h' => absurd h' h⟩

/-- For a 1:1 payout and a probability in `(1/2, 1]`, the clamp in
`kelly_fraction` is inactive and the fraction is `2p − 1`. -/
lemma kelly_fraction_eq {p : ℚ} (h1 : 1/2 < p) (h2 : p ≤ 1) :
    kelly_fraction p 1 = 2 * p - 1 := by
  rw [kelly_fraction, show (1 * p - (1 - p)) / 1 = 2 * p - 1 by ring,
    min_eq_right (by linarith), max_eq_right (by linarith)]

/-- The clamp makes `kelly_fraction` nonnegative. -/
lemma kelly_fraction_nonneg (p b : ℚ) : 0 ≤ kelly_fraction p b :=
  le_max_left 0 _

/-- The clamp caps `kelly_fraction` at 1. -/
lemma kelly_fraction_le_one (p b : ℚ) : kelly_fraction p b ≤ 1 :=
  max_le (by norm_num) (min_le_left 1 _)

lemma roundHalfEven_lb (q : ℚ) : ⌊q⌋ ≤ roundHalfEven q := by
  rw [roundHalfEven]
  split_ifs <;> omega

lemma roundHalfEven_ub (q : ℚ) : roundHalfEven q ≤ ⌊q⌋ + 1 := by
  rw [roundHalfEven]
  split_ifs <;> omega

/-- Round-half-to-even is monotone. -/
lemma roundHalfEven_mono {q r : ℚ} (h : q ≤ r) :
    roundHalfEven q ≤ roundHalfEven r := by
  rcases eq_or_lt_of_le (Int.floor_mono h) with heq | hlt
  · rw [roundHalfEven, roundHalfEven, ← heq]
    split_ifs <;> first | omega | linarith
  · calc roundHalfEven q ≤ ⌊q⌋ + 1 := roundHalfEven_ub q
    _ ≤ ⌊r⌋ := hlt
    _ ≤ roundHalfEven r := roundHalfEven_lb r

/-- Two-decimal rounding is monotone. -/
lemma round2_mono {q r : ℚ} (h : q ≤ r) : round2 q ≤ round2 r := by
  rw [round2, round2]
  have := roundHalfEven_mono (mul_le_mul_of_nonneg_right h (by norm_num : (0:ℚ) ≤ 100))
  have hc : ((roundHalfEven (q * 100) : ℚ)) ≤ ((roundHalfEven (r * 100) : ℚ)) :=
    Int.cast_le.mpr this
  linarith

/-- Evaluate `round2` when the scaled value is an exact integer. -/
lemma round2_eval_int {q : ℚ} {n : ℤ} (h : q * 100 = (n : ℚ)) :
    round2 q = (n : ℚ) / 100 := by
  rw [round2, h, roundHalfEven, Int.floor_intCast, if_pos (by norm_num)]

/-- Evaluate `round2` at an exact tie whose lower candidate is even: the tie
goes DOWN (ties-to-even). -/
lemma round2_eval_half_even {q : ℚ} {n : ℤ} (h : q * 100 = (n : ℚ) + 1/2)
    (he : n % 2 = 0) : round2 q = (n : ℚ) / 100 := by
  have hf : ⌊(n : ℚ) + 1/2⌋ = n := floor_eval (by linarith) (by linarith)
  rw [round2, h, roundHalfEven, hf, if_neg (by linarith),
    if_neg (by linarith), if_pos he]

/-- Evaluate `round2away` at a nonnegative exact tie: the tie goes UP
(ties-away-from-zero). -/
lemma round2away_eval_half {q : ℚ} {n : ℤ} (hn : 0 ≤ n)
    (h : q * 100 = (n : ℚ) + 1/2) :
    round2away q = ((n : ℚ) + 1) / 100 := by
  have h0 : (0 : ℚ) ≤ q * 100 := by rw [h]; positivity
  have hf : ⌊(n : ℚ) + 1/2 + 1/2⌋ = n + 1 :=
    floor_eval (by push_cast; linarith) (by push_cast; linarith)
  rw [round2away, roundHalfAway, if_pos h0, h, hf]
  push_cast
  ring

/-- Evaluate the advisor at a profile whose dragon probability is the larger
one and lies in `(1/2, 1]`. -/
lemma advisor_eval_dragon (P : Profile) (pd pt : ℚ)
    (hd : P.probs Market.dragon = pd) (ht : P.probs Market.tiger = pt)
    (h1 : pt ≤ pd) (h2 : 1/2 < pd) (h3 : pd ≤ 1) :
    advisor_suggestion P =
      Suggestion.stake Market.dragon pd
        (max 1 (round2 (P.bankroll * (2 * pd - 1)))) := by
  have hch : chosen P = (Market.dragon, pd) := by
    rw [chosen, if_neg (by rw [hd, ht]; exact not_lt.mpr h1), hd]
  rw [advisor_suggestion, hch]
  dsimp only
  rw [kelly_fraction_eq h2 h3, if_neg]
  rw [not_or]
  exact ⟨not_le.mpr h2, not_le.mpr (by linarith)⟩

/-! ### The claims -/

/-- C1 (amended: the two-decimal rounding is Python's ties-to-even, not
ties-away-from-zero): for every profile whose larger declared probability
`p` among dragon and tiger satisfies `1/2 < p ≤ 1`, the advisor returns a
Stake suggestion with stake `max(1.0, round2(bankroll * (2p − 1)))`, where
`round2` rounds to 2 decimals with ties to even, and the stake is never
below 1.0, whatever the bankroll. -/
theorem c1_stake_formula (P : Profile)
    (h1 : 1/2 < max (P.probs Market.dragon) (P.probs Market.tiger))
    (h2 : max (P.probs Market.dragon) (P.probs Market.tiger) ≤ 1) :
    advisor_suggestion P =
      Suggestion.stake (chosen P).1
        (max (P.probs Market.dragon) (P.probs Market.tiger))
        (max 1 (round2 (P.bankroll *
          (2 * max (P.probs Market.dragon) (P.probs Market.tiger) - 1)))) ∧
    1 ≤ max 1 (round2 (P.bankroll *
          (2 * max (P.probs Market.dragon) (P.probs Market.tiger) - 1))) := by
  have hc := chosen_snd P
  have hk : kelly_fraction (chosen P).2 1 =
      2 * max (P.probs Market.dragon) (P.probs Market.tiger) - 1 := by
    rw [hc]; exact kelly_fraction_eq h1 h2
  refine ⟨?_, le_max_left 1 _⟩
  rw [advisor_suggestion, if_neg, hk, hc]
  rw [not_or]
  constructor
  · rw [hc]; exact not_le.mpr h1
  · rw [hk]; exact not_le.mpr (by linarith)

/-- Witness for C1 at bankroll 100, dragon probability 3/4. -/
theorem c1_stake_formula_witness :
    advisor_suggestion profC1w =
      Suggestion.stake (chosen profC1w).1
        (max (profC1w.probs Market.dragon) (profC1w.probs Market.tiger))
        (max 1 (round2 (profC1w.bankroll *
          (2 * max (profC1w.probs Market.dragon) (profC1w.probs Market.tiger) - 1)))) ∧
    1 ≤ max 1 (round2 (profC1w.bankroll *
          (2 * max (profC1w.probs Market.dragon) (profC1w.probs Market.tiger) - 1))) :=
  c1_stake_formula profC1w (by simp [profC1w]; norm_num) (by simp [profC1w]; norm_num)

/-- C1 is false as literally stated: at bankroll 17 and dragon probability
9/16 (both exact in binary floating point) the pre-rounding stake is
exactly 2.125; the code's ties-to-even rounding yields 2.12, while the
claimed ties-away-from-zero rounding yields 2.13. -/
theorem c1_counterexample :
    advisor_suggestion profC1cx = Suggestion.stake Market.dragon (9/16) (53/25) ∧
    max 1 (round2away (profC1cx.bankroll * (2 * (9/16) - 1))) = 213/100 ∧
    (53/25 : ℚ) ≠ 213/100 := by
  have hbk : profC1cx.bankroll = 17 := rfl
  have h1 : advisor_suggestion profC1cx =
      Suggestion.stake Market.dragon (9/16)
        (max 1 (round2 (profC1cx.bankroll * (2 * (9/16) - 1)))) :=
    advisor_eval_dragon profC1cx (9/16) (1/2) rfl rfl (by norm_num) (by norm_num)
      (by norm_num)
  have hr : round2 (profC1cx.bankroll * (2 * (9/16) - 1)) = (212 : ℚ) / 100 := by
    rw [hbk]
    exact round2_eval_half_even (n := 212) (by norm_num) (by decide)
  have ha : round2away (profC1cx.bankroll * (2 * (9/16) - 1)) = ((212 : ℚ) + 1) / 100 := by
    rw [hbk]
    exact round2away_eval_half (n := 212) (by norm_num) (by norm_num)
  refine ⟨?_, ?_, by norm_num⟩
  · rw [h1, hr, max_eq_right (by norm_num)]
    norm_num
  · rw [ha, max_eq_right (by norm_num)]
    norm_num

/-- C7: whenever the larger declared probability among dragon and tiger is
at most 1/2, the advisor returns NoEdge, whatever the bankroll. -/
theorem c7_no_edge (P : Profile)
    (h : max (P.probs Market.dragon) (P.probs Market.tiger) ≤ 1/2) :
    advisor_suggestion P = Suggestion.noEdge := by
  rw [advisor_suggestion, if_pos]
  exact Or.inl (by rw [chosen_snd]; exact h)

/-- Witness for C7: the all-default profile (both probabilities 1/2). -/
theorem c7_no_edge_witness : advisor_suggestion profDefault = Suggestion.noEdge :=
  c7_no_edge profDefault (by simp [profDefault])

/-- C8: any Stake suggestion is on dragon or tiger (never tie), uses the
larger of the two declared probabilities, and dragon wins ties. -/
theorem c8_market_choice (P : Profile) (m : Market) (prob s : ℚ)
    (h : advisor_suggestion P = Suggestion.stake m prob s) :
    m ≠ Market.tie ∧
    prob = max (P.probs Market.dragon) (P.probs Market.tiger) ∧
    (P.probs Market.tiger ≤ P.probs Market.dragon → m = Market.dragon) ∧
    (P.probs Market.dragon < P.probs Market.tiger → m = Market.tiger) := by
  rw [advisor_suggestion] at h
  by_cases hcond : (chosen P).2 ≤ 1/2 ∨ kelly_fraction (chosen P).2 1 ≤ 0
  · rw [if_pos hcond] at h
    exact absurd h (by simp)
  · rw [if_neg hcond, Suggestion.stake.injEq] at h
    obtain ⟨h1, h2, -⟩ := h
    refine ⟨?_, ?_, ?_, ?_⟩
    · rw [← h1, chosen]
      split_ifs <;> simp
    · rw [← h2]
      exact chosen_snd P
    · intro hle
      rw [← h1]
      exact (chosen_fst P).1 hle
    · intro hlt
      rw [← h1]
      exact (chosen_fst P).2 hlt

/-- Witness for C8: the spec's scenario bankroll 100, probs
dragon 0.7 / tiger 0.4 / tie 0.08 yields dragon with stake 40.00. -/
theorem c8_market_choice_witness :
    advisor_suggestion profC8w = Suggestion.stake Market.dragon (7/10) 40 ∧
    Market.dragon ≠ Market.tie := by
  have heval : advisor_suggestion profC8w =
      Suggestion.stake Market.dragon (7/10) 40 := by
    have h := advisor_eval_dragon profC8w (7/10) (2/5) rfl rfl (by norm_num)
      (by norm_num) (by norm_num)
    have hr : round2 (profC8w.bankroll * (2 * (7/10) - 1)) = (4000 : ℚ) / 100 := by
      have hbk : profC8w.bankroll = 100 := rfl
      rw [hbk]
      exact round2_eval_int (n := 4000) (by norm_num)
    rw [h, hr, max_eq_right (by norm_num)]
    norm_num
  exact ⟨heval, (c8_market_choice profC8w Market.dragon (7/10) 40 heval).1⟩

/-- C10 (implicit): the clamp keeps `kelly_fraction` in `[0, 1]` for every
input, and consequently, for a nonnegative bankroll, any recommended stake
is at most `max 1 (round2 bankroll)` — the advisor never suggests more than
the whole (rounded) bankroll, up to the 1.0 minimum-stake floor. -/
theorem c10_kelly_clamp_bounds_stake :
    (∀ p b : ℚ, 0 ≤ kelly_fraction p b ∧ kelly_fraction p b ≤ 1) ∧
    ∀ (P : Profile) (m : Market) (prob s : ℚ), 0 ≤ P.bankroll →
      advisor_suggestion P = Suggestion.stake m prob s →
      s ≤ max 1 (round2 P.bankroll) := by
  refine ⟨fun p b => ⟨kelly_fraction_nonneg p b, kelly_fraction_le_one p b⟩, ?_⟩
  intro P m prob s hbk h
  rw [advisor_suggestion] at h
  by_cases hcond : (chosen P).2 ≤ 1/2 ∨ kelly_fraction (chosen P).2 1 ≤ 0
  · rw [if_pos hcond] at h
    exact absurd h (by simp)
  · rw [if_neg hcond, Suggestion.stake.injEq] at h
    obtain ⟨-, -, h3⟩ := h
    subst h3
    have hf : P.bankroll * kelly_fraction (chosen P).2 1 ≤ P.bankroll :=
      mul_le_of_le_one_right hbk (kelly_fraction_le_one _ _)
    exact max_le_max le_rfl (round2_mono hf)

/-- Witness for C10: probability 2 (outside `[0,1]`) still gives a fraction
in `[0,1]`, and at bankroll 5 with a declared certainty the suggested stake
5 is within the rounded-bankroll bound. -/
theorem c10_kelly_clamp_bounds_stake_witness :
    0 ≤ kelly_fraction 2 1 ∧ kelly_fraction 2 1 ≤ 1 ∧
    advisor_suggestion profC10w = Suggestion.stake Market.dragon 1 5 ∧
    5 ≤ max 1 (round2 profC10w.bankroll) := by
  have heval : advisor_suggestion profC10w = Suggestion.stake Market.dragon 1 5 := by
    have h := advisor_eval_dragon profC10w 1 (1/2) rfl rfl (by norm_num)
      (by norm_num) (by norm_num)
    have hr : round2 (profC10w.bankroll * (2 * 1 - 1)) = (500 : ℚ) / 100 := by
      have hbk : profC10w.bankroll = 5 := rfl
      rw [hbk]
      exact round2_eval_int (n := 500) (by norm_num)
    rw [h, hr, max_eq_right (by norm_num)]
    norm_num
  exact ⟨(c10_kelly_clamp_bounds_stake.1 2 1).1, (c10_kelly_clamp_bounds_stake.1 2 1).2,
    heval,
    c10_kelly_clamp_bounds_stake.2 profC10w Market.dragon 1 5 (by norm_num [profC10w]) heval⟩

/-- When the stop-loss condition holds, `suggest` reports it first,
whatever the cooldown state. -/
lemma suggest_stopLoss (P : Profile) (t : ℚ) (h1 : P.stop_loss ≠ 0)
    (h2 : session_pnl P ≤ -|P.stop_loss|) :
    suggest P t = SuggestResult.stopLossHit := by
  have hc : check_limits P.stop_loss P.stop_win (session_pnl P) =
      GateResult.stopLossHit := by
    rw [check_limits, if_pos ⟨h1, h2⟩]
  unfold suggest
  rw [hc]

/-- When the stop-loss condition fails but the stop-win condition holds,
`suggest` reports stop-win, whatever the cooldown state. -/
lemma suggest_stopWin (P : Profile) (t : ℚ)
    (hnot : ¬(P.stop_loss ≠ 0 ∧ session_pnl P ≤ -|P.stop_loss|))
    (h1 : P.stop_win ≠ 0) (h2 : |P.stop_win| ≤ session_pnl P) :
    suggest P t = SuggestResult.stopWinHit := by
  have hc : check_limits P.stop_loss P.stop_win (session_pnl P) =
      GateResult.stopWinHit := by
    rw [check_limits, if_neg hnot, if_pos ⟨h1, h2⟩]
  unfold suggest
  rw [hc]

/-- C2 (amended: the code evaluates the gates in the order stop-loss,
stop-win, cooldown — NOT cooldown first): whenever a stop-limit condition
holds, `request_suggestion` reports that stop-limit even while a cooldown
is simultaneously active; `CooldownActive` is only reported when neither
stop-limit condition holds. -/
theorem c2_stop_limits_before_cooldown (P : Profile) (t : ℚ) :
    (P.stop_loss ≠ 0 → session_pnl P ≤ -|P.stop_loss| →
      suggest P t = SuggestResult.stopLossHit) ∧
    (¬(P.stop_loss ≠ 0 ∧ session_pnl P ≤ -|P.stop_loss|) →
      P.stop_win ≠ 0 → |P.stop_win| ≤ session_pnl P →
      suggest P t = SuggestResult.stopWinHit) :=
  ⟨fun h1 h2 => suggest_stopLoss P t h1 h2,
   fun hnot h1 h2 => suggest_stopWin P t hnot h1 h2⟩

/-- Witness for the amended C2: with stop-loss 50 hit and a 600-second
cooldown still running, the reply is stop-loss; with stop-win 50 hit and
the same cooldown, the reply is stop-win. -/
theorem c2_stop_limits_before_cooldown_witness :
    suggest profC2cx 100 = SuggestResult.stopLossHit ∧
    suggest profC2cx' 100 = SuggestResult.stopWinHit := by
  constructor
  · have hpnl : session_pnl profC2cx = -50 := by
      simp [session_pnl, profC2cx]
    refine (c2_stop_limits_before_cooldown profC2cx 100).1 ?_ ?_
    · show profC2cx.stop_loss ≠ 0
      norm_num [profC2cx]
    · rw [hpnl]
      show (-50 : ℚ) ≤ -|profC2cx.stop_loss|
      rw [show profC2cx.stop_loss = 50 from rfl, abs_of_pos (by norm_num : (0:ℚ) < 50)]
  · have hpnl : session_pnl profC2cx' = 50 := by
      simp [session_pnl, profC2cx']
    refine (c2_stop_limits_before_cooldown profC2cx' 100).2 ?_ ?_ ?_
    · rw [hpnl]
      show ¬(profC2cx'.stop_loss ≠ 0 ∧ (50:ℚ) ≤ -|profC2cx'.stop_loss|)
      rw [show profC2cx'.stop_loss = 0 from rfl]
      simp
    · show profC2cx'.stop_win ≠ 0
      norm_num [profC2cx']
    · rw [hpnl]
      show |profC2cx'.stop_win| ≤ (50:ℚ)
      rw [show profC2cx'.stop_win = 50 from rfl, abs_of_pos (by norm_num : (0:ℚ) < 50)]

/-- C2 is false as stated: at time 100 the profile `profC2cx` has an active
cooldown of 600 remaining seconds AND a hit stop-loss, yet `suggest`
returns `StopLossHit`, not `CooldownActive`. -/
theorem c2_counterexample :
    ensure_cooldown profC2cx 100 = some 600 ∧
    suggest profC2cx 100 = SuggestResult.stopLossHit ∧
    suggest profC2cx 100 ≠ SuggestResult.cooldownActive 600 := by
  have hcd : ensure_cooldown profC2cx 100 = some 600 := by
    have harg : profC2cx.last_bet_ts + (profC2cx.cooldown_min : ℚ) * 60 - 100 = 600 := by
      norm_num [profC2cx]
    have hpy : pyInt (profC2cx.last_bet_ts + (profC2cx.cooldown_min : ℚ) * 60 - 100) = 600 := by
      rw [harg, pyInt, if_pos (by norm_num)]
      exact floor_eval (by norm_num) (by norm_num)
    rw [ensure_cooldown, if_neg (by norm_num [profC2cx]), hpy, if_pos (by norm_num)]
  have hsl : suggest profC2cx 100 = SuggestResult.stopLossHit := by
    apply suggest_stopLoss
    · norm_num [profC2cx]
    · have hpnl : session_pnl profC2cx = -50 := by
        simp [session_pnl, profC2cx]
      rw [hpnl, show profC2cx.stop_loss = 50 from rfl,
        abs_of_pos (by norm_num : (0:ℚ) < 50)]
  exact ⟨hcd, hsl, by rw [hsl]; simp⟩

/-- C6: `check_limits` gives stop-loss priority — whenever both limits are
configured (positive) and the stop-loss condition holds, the result is
`StopLossHit`, never `StopWinHit` (for positive limits the two conditions
can in fact never hold at once; this is the claim with the impossible
second condition dropped, which is stronger). -/
theorem c6_stop_loss_priority (sl sw pnl : ℚ)
    (h1 : 0 < sl) (_h2 : 0 < sw) (h3 : pnl ≤ -sl) :
    check_limits sl sw pnl = GateResult.stopLossHit := by
  rw [check_limits, if_pos ⟨ne_of_gt h1, by rwa [abs_of_pos h1]⟩]

/-- Witness for C6: the spec's tie-break example `stop_loss = stop_win = 50`,
`session_pnl = −50`. -/
theorem c6_stop_loss_priority_witness :
    check_limits 50 50 (-50) = GateResult.stopLossHit :=
  c6_stop_loss_priority 50 50 (-50) (by norm_num) (by norm_num) (by norm_num)

/-- Truncation of a value below 1 is never positive. -/
lemma pyInt_nonpos {q : ℚ} (h : q < 1) : pyInt q ≤ 0 := by
  by_cases h0 : 0 ≤ q
  · rw [pyInt, if_pos h0]
    have : ⌊q⌋ < 1 := Int.floor_lt.mpr (by exact_mod_cast h)
    omega
  · rw [pyInt, if_neg h0]
    exact Int.ceil_le.mpr (by push_cast; linarith)

/-- For values at least 1, truncation agrees with floor and is positive. -/
lemma pyInt_pos_eq_floor {q : ℚ} (h : 1 ≤ q) : pyInt q = ⌊q⌋ ∧ 0 < ⌊q⌋ := by
  refine ⟨by rw [pyInt, if_pos (by linarith)], ?_⟩
  have : (1 : ℤ) ≤ ⌊q⌋ := Int.le_floor.mpr (by exact_mod_cast h)
  omega

/-- C9 (amended: the code returns none whenever the truncated remainder is
not positive, i.e. whenever the raw remaining time is below 1 second — not
only when it is ≤ 0): `ensure_cooldown` returns none when
`cooldown_min ≤ 0`; otherwise, with `v = last_bet_ts + cooldown_min*60 − now`,
it returns none when `v < 1` and `some ⌊v⌋` (which is positive) when
`v ≥ 1`. -/
theorem c9_cooldown_remaining (P : Profile) (t : ℚ) :
    (P.cooldown_min ≤ 0 → ensure_cooldown P t = none) ∧
    (0 < P.cooldown_min →
      (P.last_bet_ts + (P.cooldown_min : ℚ) * 60 - t < 1 →
        ensure_cooldown P t = none) ∧
      (1 ≤ P.last_bet_ts + (P.cooldown_min : ℚ) * 60 - t →
        ensure_cooldown P t =
          some ⌊P.last_bet_ts + (P.cooldown_min : ℚ) * 60 - t⌋ ∧
        0 < ⌊P.last_bet_ts + (P.cooldown_min : ℚ) * 60 - t⌋)) := by
  refine ⟨fun h => by rw [ensure_cooldown, if_pos h], fun hcd => ⟨fun hlt => ?_, fun hge => ?_⟩⟩
  · have hnp : ¬(0 < pyInt (P.last_bet_ts + (P.cooldown_min : ℚ) * 60 - t)) := by
      have := pyInt_nonpos hlt
      omega
    rw [ensure_cooldown, if_neg (not_le.mpr hcd), if_neg hnp]
  · obtain ⟨heq, hpos⟩ := pyInt_pos_eq_floor hge
    refine ⟨?_, hpos⟩
    rw [ensure_cooldown, if_neg (not_le.mpr hcd), heq, if_pos hpos]

/-- Witness for the amended C9: 1-minute cooldown and a wager 30 seconds
ago gives `some 30` (positive and ≤ 30); 61 seconds ago gives none. -/
theorem c9_cooldown_remaining_witness :
    ensure_cooldown profC9w30 100 = some 30 ∧ (0 : ℤ) < 30 ∧ (30 : ℤ) ≤ 30 ∧
    ensure_cooldown profC9w61 100 = none := by
  have hv30 : profC9w30.last_bet_ts + (profC9w30.cooldown_min : ℚ) * 60 - 100 = 30 := by
    norm_num [profC9w30]
  have h30 := ((c9_cooldown_remaining profC9w30 100).2 (by norm_num [profC9w30])).2
    (by rw [hv30]; norm_num)
  have hf30 : ⌊profC9w30.last_bet_ts + (profC9w30.cooldown_min : ℚ) * 60 - 100⌋ = 30 := by
    rw [hv30]
    exact floor_eval (by norm_num) (by norm_num)
  have h61 := ((c9_cooldown_remaining profC9w61 100).2 (by norm_num [profC9w61])).1
    (by norm_num [profC9w61])
  refine ⟨?_, by norm_num, by norm_num, h61⟩
  rw [← hf30]
  exact h30.1

/-- C9 is false as stated: with a 1-minute cooldown and the last wager 59.5
seconds ago the raw remaining time is 0.5 — positive, so the claim demands
`some ⌊0.5⌋ = some 0`, but the code truncates first and returns none. -/
theorem c9_counterexample :
    ensure_cooldown profC9cx 100 = none ∧
    cooldown_remaining_claim profC9cx 100 = some 0 ∧
    (none : Option ℤ) ≠ some 0 := by
  have hv : profC9cx.last_bet_ts + (profC9cx.cooldown_min : ℚ) * 60 - 100 = 1/2 := by
    norm_num [profC9cx]
  refine ⟨?_, ?_, by simp⟩
  · have hnp : ¬(0 < pyInt (profC9cx.last_bet_ts + (profC9cx.cooldown_min : ℚ) * 60 - 100)) := by
      have := pyInt_nonpos
        (q := profC9cx.last_bet_ts + (profC9cx.cooldown_min : ℚ) * 60 - 100)
        (by rw [hv]; norm_num)
      omega
    rw [ensure_cooldown, if_neg (by norm_num [profC9cx]), if_neg hnp]
  · rw [cooldown_remaining_claim, if_neg (by norm_num [profC9cx]),
      if_neg (by rw [hv]; norm_num), hv,
      floor_eval (n := 0) (by norm_num) (by norm_num)]

/-- Scanning a list whose bets are all closed finds nothing to close. -/
lemma closeLast_of_all_closed (oc : Outcome) (l : List Bet)
    (h : ∀ b ∈ l, b.outcome ≠ none) : closeLast l oc = none := by
  induction l with
  | nil => rfl
  | cons b rest ih =>
    rw [closeLast, ih (fun b' hb' => h b' (List.mem_cons_of_mem b hb'))]
    rw [if_neg (h b (List.mem_cons_self b rest))]

/-- Closing acts on the LAST open bet: with everything to its right already
closed, exactly that bet gets the outcome and the pnl. -/
lemma closeLast_append (oc : Outcome) (l₁ l₂ : List Bet) (b : Bet)
    (hopen : b.outcome = none) (hl₂ : closeLast l₂ oc = none) :
    closeLast (l₁ ++ b :: l₂) oc =
      some (l₁ ++ { b with outcome := some oc,
                           pnl := some (pnlOf oc b.stake) } :: l₂,
            pnlOf oc b.stake) := by
  induction l₁ with
  | nil =>
    rw [List.nil_append, List.nil_append, closeLast, hl₂, if_pos hopen]
  | cons a l₁ ih =>
    rw [List.cons_append, closeLast, ih, List.cons_append]

/-- C3: `/bet` is gated by the cooldown only — with no active cooldown, any
positive stake on a known market is accepted, appending an open wager and
setting `last_bet_ts` to now, while bankroll and lifetime aggregates stay
untouched; no stop-limit condition is consulted. -/
theorem c3_bet_cooldown_only (P : Profile) (stake : ℚ) (m : Market) (t : ℚ)
    (hs : 0 < stake) (hcd : ensure_cooldown P t = none) :
    ∃ P', bet P stake m t = BetResult.placed P' ∧
      P'.bets = P.bets ++ [{ ts := t, stake := stake, market := m,
                             outcome := none, pnl := none }] ∧
      P'.last_bet_ts = t ∧
      P'.bankroll = P.bankroll ∧
      P'.lifetime_bets = P.lifetime_bets ∧
      P'.lifetime_pnl = P.lifetime_pnl := by
  refine ⟨place_bet P stake m t, ?_, rfl, rfl, rfl, rfl, rfl⟩
  rw [bet, if_pos hs, hcd]

/-- Witness for C3: `profC3w` has its stop-loss of 50 already hit, yet a
bet of 10 on dragon at time 100 goes through. -/
theorem c3_bet_cooldown_only_witness :
    check_limits profC3w.stop_loss profC3w.stop_win (session_pnl profC3w) =
      GateResult.stopLossHit ∧
    ∃ P', bet profC3w 10 Market.dragon 100 = BetResult.placed P' ∧
      P'.bets = profC3w.bets ++ [{ ts := 100, stake := 10, market := Market.dragon,
                                   outcome := none, pnl := none }] ∧
      P'.last_bet_ts = 100 ∧
      P'.bankroll = profC3w.bankroll ∧
      P'.lifetime_bets = profC3w.lifetime_bets ∧
      P'.lifetime_pnl = profC3w.lifetime_pnl := by
  constructor
  · have hpnl : session_pnl profC3w = -50 := by
      simp [session_pnl, profC3w]
    rw [hpnl, show profC3w.stop_loss = 50 from rfl, show profC3w.stop_win = 0 from rfl]
    rw [check_limits, if_pos ⟨by norm_num, by rw [abs_of_pos (by norm_num : (0:ℚ) < 50)]⟩]
  · exact c3_bet_cooldown_only profC3w 10 Market.dragon 100 (by norm_num)
      (by rw [ensure_cooldown, if_pos (by norm_num [profC3w])])

/-- C4: with at least one open wager, `/result` with a valid outcome closes
the most recently appended open wager, with pnl win → +stake,
lose → −stake, push → 0, and adds that pnl to bankroll and lifetime_pnl and
1 to lifetime_bets. -/
theorem c4_close_most_recent (P : Profile) (oc : Outcome) (l₁ l₂ : List Bet)
    (b : Bet) (hsplit : P.bets = l₁ ++ b :: l₂) (hopen : b.outcome = none)
    (hclosed : ∀ b' ∈ l₂, b'.outcome ≠ none) :
    result_cmd P oc =
      ResultCmdResult.closed
        { P with
          bets := l₁ ++ { b with outcome := some oc,
                                 pnl := some (pnlOf oc b.stake) } :: l₂,
          lifetime_bets := P.lifetime_bets + 1,
          lifetime_pnl := P.lifetime_pnl + pnlOf oc b.stake,
          bankroll := P.bankroll + pnlOf oc b.stake }
        (pnlOf oc b.stake) := by
  unfold result_cmd
  rw [hsplit, closeLast_append oc l₁ l₂ b hopen (closeLast_of_all_closed oc l₂ hclosed)]

/-- Witness for C4: the spec's scenario — place a bet of 10 on dragon, then
record a win: the bankroll rises by exactly 10 (here 100 → 110),
lifetime_pnl by 10, lifetime_bets by 1. -/
theorem c4_close_most_recent_witness :
    bet profC4w 10 Market.dragon 5 =
      BetResult.placed (place_bet profC4w 10 Market.dragon 5) ∧
    result_cmd (place_bet profC4w 10 Market.dragon 5) Outcome.win =
      ResultCmdResult.closed
        { place_bet profC4w 10 Market.dragon 5 with
          bets := [] ++ { ts := 5, stake := 10, market := Market.dragon,
                          outcome := some Outcome.win,
                          pnl := some (pnlOf Outcome.win 10) } :: [],
          lifetime_bets := (place_bet profC4w 10 Market.dragon 5).lifetime_bets + 1,
          lifetime_pnl := (place_bet profC4w 10 Market.dragon 5).lifetime_pnl +
            pnlOf Outcome.win 10,
          bankroll := (place_bet profC4w 10 Market.dragon 5).bankroll +
            pnlOf Outcome.win 10 }
        (pnlOf Outcome.win 10) ∧
    (place_bet profC4w 10 Market.dragon 5).bankroll + pnlOf Outcome.win 10 = 110 ∧
    pnlOf Outcome.win 10 = 10 := by
  refine ⟨?_, ?_, ?_, rfl⟩
  · rw [bet, if_pos (by norm_num),
      show ensure_cooldown profC4w 5 = none from
        by rw [ensure_cooldown, if_pos (by norm_num [profC4w])]]
  · exact c4_close_most_recent (place_bet profC4w 10 Market.dragon 5) Outcome.win
      [] [] { ts := 5, stake := 10, market := Market.dragon, outcome := none, pnl := none }
      (by simp [place_bet, profC4w]) rfl (by simp)
  · norm_num [place_bet, profC4w, pnlOf]

/-- C5: with no open wager, `/result` reports `NoOpenWager` and mutates
nothing (the embedding returns no updated profile in that case, mirroring
the code's early return before any assignment). -/
theorem c5_no_open_wager (P : Profile) (oc : Outcome)
    (h : ∀ b ∈ P.bets, b.outcome ≠ none) :
    result_cmd P oc = ResultCmdResult.noOpenWager := by
  unfold result_cmd
  rw [closeLast_of_all_closed oc P.bets h]

/-- Witness for C5: closing the single open wager of `profC5a` succeeds and
yields `profC5b`; closing again immediately fails with `NoOpenWager`. -/
theorem c5_no_open_wager_witness :
    result_cmd profC5a Outcome.win = ResultCmdResult.closed profC5b 10 ∧
    result_cmd profC5b Outcome.win = ResultCmdResult.noOpenWager := by
  constructor
  · unfold result_cmd
    have hcl : closeLast profC5a.bets Outcome.win = some (profC5b.bets, 10) := by
      have h := closeLast_append Outcome.win [] []
        { ts := 5, stake := 10, market := Market.dragon, outcome := none, pnl := none }
        rfl rfl
      rw [List.nil_append, List.nil_append] at h
      have hb : profC5a.bets =
          [{ ts := 5, stake := 10, market := Market.dragon,
             outcome := none, pnl := none }] := rfl
      rw [hb, h]
      rfl
    rw [hcl]
    simp only [profC5a, profC5b, Profile.mk.injEq]
    norm_num
  · exact c5_no_open_wager profC5b Outcome.win (by simp [profC5b])
